import Mathlib

/-!
Verification of `release/serve_tests/workloads/microbenchmarks.py`.

The program benchmarks a serving system over HTTP, gRPC and in-process handles.
Its pure core is formalised here:

* `convert_throughput_to_perf_metrics` and `convert_latencies_to_perf_metrics`,
  the two metric-reporter functions (floats are modelled by `ℚ`; the pandas
  `Series.quantile` default method is linear interpolation between the two
  nearest ranks of the sorted samples, and it yields NaN on an empty series,
  modelled here by `Option.none`);
* the metric-assembly of the driver `_main` as a pure function of the raw
  benchmark outcomes, and the CLI flag-defaulting logic of `main`;
* a trace model of the batch-barrier scheduling of `run_throughput_benchmark`
  (whose implementation lives in `ray.serve._private.benchmarks.common`,
  outside this repository's sources).
-/

namespace Microbenchmarks

/-- The `perf_metric_type` field: the string `"LATENCY"` or `"THROUGHPUT"`. -/
inductive MetricKind where
  | LATENCY
  | THROUGHPUT
  deriving DecidableEq, Repr

/-- One perf metric record, the dict with keys `perf_metric_name`,
`perf_metric_value` and `perf_metric_type` built by the two converter
functions.  The value is `Option ℚ`: `none` models the NaN that pandas
produces when a quantile of an empty series is requested. -/
structure PerfMetricRecord where
  perf_metric_name : String
  perf_metric_value : Option ℚ
  perf_metric_type : MetricKind
  deriving DecidableEq, Repr

/-- The ascending sorted copy of the samples that `pandas.Series.quantile`
works on (the input series itself is left untouched). -/
def sortedSamples (samples : List ℚ) : List ℚ :=
  List.insertionSort (· ≤ ·) samples

/-- Linear interpolation at fractional rank `h` into the sorted list `s`:
`s[⌊h⌋] + (h - ⌊h⌋) * (s[⌊h⌋ + 1] - s[⌊h⌋])`, the last entry being reused
when `⌊h⌋ + 1` is out of range. -/
def interpIdx (s : List ℚ) (h : ℚ) : ℚ :=
  s.getD ⌊h⌋₊ 0 +
    (h - (⌊h⌋₊ : ℚ)) * (s.getD (⌊h⌋₊ + 1) (s.getD ⌊h⌋₊ 0) - s.getD ⌊h⌋₊ 0)

/-- `pandas.Series.quantile(q)` with the default `interpolation="linear"`:
the value at fractional rank `(n - 1) * q` of the sorted samples. -/
def interpAt (s : List ℚ) (q : ℚ) : ℚ :=
  interpIdx s (((s.length : ℚ) - 1) * q)

/-- `latencies.quantile(q)` as used by `convert_latencies_to_perf_metrics`:
NaN (here `none`) on an empty series, otherwise linear interpolation between
the two nearest ranks of the sorted sample sequence. -/
def quantile (samples : List ℚ) (q : ℚ) : Option ℚ :=
  if samples = [] then none else some (interpAt (sortedSamples samples) q)

/-- `convert_throughput_to_perf_metrics(name, mean, std)` from
`microbenchmarks.py`. -/
def convert_throughput_to_perf_metrics (name : String) (mean std : ℚ) :
    List PerfMetricRecord :=
  [⟨name ++ "_avg_rps", some mean, MetricKind.THROUGHPUT⟩,
   ⟨name ++ "_throughput_std", some std, MetricKind.THROUGHPUT⟩]

/-- `convert_latencies_to_perf_metrics(name, latencies)` from
`microbenchmarks.py`: the p50/p90/p95/p99 quantiles of the samples. -/
def convert_latencies_to_perf_metrics (name : String) (latencies : List ℚ) :
    List PerfMetricRecord :=
  [⟨name ++ "_p50_latency", quantile latencies (1/2), MetricKind.LATENCY⟩,
   ⟨name ++ "_p90_latency", quantile latencies (9/10), MetricKind.LATENCY⟩,
   ⟨name ++ "_p95_latency", quantile latencies (95/100), MetricKind.LATENCY⟩,
   ⟨name ++ "_p99_latency", quantile latencies (99/100), MetricKind.LATENCY⟩]

/-- State-passing view of `convert_latencies_to_perf_metrics`: pandas
`Series.quantile` does not mutate the series (percentiles are computed on a
sorted copy), so the call returns the records together with the unchanged
input buffer. -/
def convert_latencies_to_perf_metrics_state (name : String)
    (latencies : List ℚ) : List PerfMetricRecord × List ℚ :=
  (convert_latencies_to_perf_metrics name latencies, latencies)

/-- The raw benchmark outcomes `_main` obtains from the samplers: one latency
sample list per latency benchmark and one `(mean, std)` pair per throughput
benchmark.  They are inputs of the pure metric-assembly model of `_main`. -/
structure BenchResults where
  http_noop_lat : List ℚ
  http_1mb_lat : List ℚ
  http_10mb_lat : List ℚ
  http_tp : ℚ × ℚ
  http_100_tp : ℚ × ℚ
  grpc_noop_lat : List ℚ
  grpc_1mb_lat : List ℚ
  grpc_10mb_lat : List ℚ
  grpc_tp : ℚ × ℚ
  grpc_100_tp : ℚ × ℚ
  handle_noop_lat : List ℚ
  handle_1mb_lat : List ℚ
  handle_10mb_lat : List ℚ
  handle_tp : ℚ × ℚ
  handle_100_tp : ℚ × ℚ
  deriving DecidableEq

/-- The records contributed by the `if run_http:` block of `_main`. -/
def httpMetrics (run_latency run_throughput : Bool) (r : BenchResults) :
    List PerfMetricRecord :=
  (if run_latency then
      convert_latencies_to_perf_metrics "http" r.http_noop_lat ++
        convert_latencies_to_perf_metrics "http_1mb" r.http_1mb_lat ++
        convert_latencies_to_perf_metrics "http_10mb" r.http_10mb_lat
    else []) ++
  (if run_throughput then
      convert_throughput_to_perf_metrics "http" r.http_tp.1 r.http_tp.2 ++
        convert_throughput_to_perf_metrics "http_100_max_ongoing_requests"
          r.http_100_tp.1 r.http_100_tp.2
    else [])

/-- The records contributed by the `if run_grpc:` block of `_main`. -/
def grpcMetrics (run_latency run_throughput : Bool) (r : BenchResults) :
    List PerfMetricRecord :=
  (if run_latency then
      convert_latencies_to_perf_metrics "grpc" r.grpc_noop_lat ++
        convert_latencies_to_perf_metrics "grpc_1mb" r.grpc_1mb_lat ++
        convert_latencies_to_perf_metrics "grpc_10mb" r.grpc_10mb_lat
    else []) ++
  (if run_throughput then
      convert_throughput_to_perf_metrics "grpc" r.grpc_tp.1 r.grpc_tp.2 ++
        convert_throughput_to_perf_metrics "grpc_100_max_ongoing_requests"
          r.grpc_100_tp.1 r.grpc_100_tp.2
    else [])

/-- The records contributed by the `if run_handle:` block of `_main`. -/
def handleMetrics (run_latency run_throughput : Bool) (r : BenchResults) :
    List PerfMetricRecord :=
  (if run_latency then
      convert_latencies_to_perf_metrics "handle" r.handle_noop_lat ++
        convert_latencies_to_perf_metrics "handle_1mb" r.handle_1mb_lat ++
        convert_latencies_to_perf_metrics "handle_10mb" r.handle_10mb_lat
    else []) ++
  (if run_throughput then
      convert_throughput_to_perf_metrics "handle" r.handle_tp.1 r.handle_tp.2 ++
        convert_throughput_to_perf_metrics "handle_100_max_ongoing_requests"
          r.handle_100_tp.1 r.handle_100_tp.2
    else [])

/-- The `perf_metrics` list assembled by `_main`: `perf_metrics = []` extended
by the HTTP, then gRPC, then handle blocks, each latency-first. -/
def mainPerfMetrics (run_http run_grpc run_handle run_latency run_throughput :
    Bool) (r : BenchResults) : List PerfMetricRecord :=
  (if run_http then httpMetrics run_latency run_throughput r else []) ++
    (if run_grpc then grpcMetrics run_latency run_throughput r else []) ++
      (if run_handle then handleMetrics run_latency run_throughput r else [])

/-- The flag-defaulting logic at the top of `main`: if none of the five
selection flags is set, `run_all` is forced on; if `run_all` holds, all five
flags are forced on; otherwise the five flags pass through unchanged. -/
def resolvedFlags (run_all run_http run_grpc run_handle run_latency
    run_throughput : Bool) : Bool × Bool × Bool × Bool × Bool :=
  if (if !(run_http || run_grpc || run_handle || run_latency || run_throughput)
        then true else run_all) then
    (true, true, true, true, true)
  else
    (run_http, run_grpc, run_handle, run_latency, run_throughput)

/-- `main` followed by `_main`: resolve the CLI flags, then assemble the
`perf_metrics` list that is saved in the results file. -/
def mainResult (run_all run_http run_grpc run_handle run_latency
    run_throughput : Bool) (r : BenchResults) : List PerfMetricRecord :=
  match resolvedFlags run_all run_http run_grpc run_handle run_latency
      run_throughput with
  | (h, g, d, l, t) => mainPerfMetrics h g d l t r

/-- Modelled from the spec: the body of `run_throughput_benchmark` lives in
`ray.serve._private.benchmarks.common`, outside this repository's sources.
A trial's execution is abstracted as a trace of request events. -/
inductive ThroughputEvent where
  | start
  | finish
  deriving DecidableEq, Repr

/-- Number of `issue()` calls launched in the trace. -/
def startCount (l : List ThroughputEvent) : ℕ :=
  l.count ThroughputEvent.start

/-- Number of `issue()` calls completed in the trace. -/
def finishCount (l : List ThroughputEvent) : ℕ :=
  l.count ThroughputEvent.finish

/-- Requests in flight after the events of `l`: launched minus completed. -/
def inFlight (l : List ThroughputEvent) : ℤ :=
  (startCount l : ℤ) - (finishCount l : ℤ)

/-- `p` is an initial segment of the event list `l`. -/
def InitSeg {α : Type} (p l : List α) : Prop :=
  ∃ t, p ++ t = l

/-- Modelled from the spec: one batch of the Throughput Sampler launches
`k` concurrent `issue()` calls and awaits them all, so its event trace has
exactly `k` starts and `k` finishes, and no call finishes before it starts
(every initial segment has at least as many starts as finishes). -/
def IsBatchTrace (k : ℕ) (l : List ThroughputEvent) : Prop :=
  startCount l = k ∧ finishCount l = k ∧
    ∀ p, InitSeg p l → finishCount p ≤ startCount p

/-- Modelled from the spec: a trial of `run_throughput_benchmark` launches
batch after batch, each batch gated on full completion of the previous one,
so the trial trace is a concatenation of complete batch traces. -/
def IsTrialTrace (k : ℕ) (tr : List ThroughputEvent) : Prop :=
  ∃ batches : List (List ThroughputEvent),
    tr = batches.flatten ∧ ∀ b ∈ batches, IsBatchTrace k b

/-- A record originates from one of the two metric-reporter functions. -/
def FromReporter (rec : PerfMetricRecord) : Prop :=
  (∃ nm samples, rec ∈ convert_latencies_to_perf_metrics nm samples) ∨
  (∃ nm mean std, rec ∈ convert_throughput_to_perf_metrics nm mean std)

/-- A trivial set of benchmark outcomes, used as a concrete test fixture. -/
def emptyResults : BenchResults :=
  ⟨[], [], [], (0, 0), (0, 0), [], [], [], (0, 0), (0, 0), [], [], [], (0, 0),
    (0, 0)⟩

/-- C10: applied to an empty sample sequence, `convert_latencies_to_perf_metrics`
does not fail: it still returns exactly four LATENCY records with the
standard names, each carrying the undefined (NaN, here `none`) quantile of
an empty sequence. -/
theorem latencies_to_metrics_empty (name : String) :
    convert_latencies_to_perf_metrics name [] =
      [⟨name ++ "_p50_latency", none, MetricKind.LATENCY⟩,
       ⟨name ++ "_p90_latency", none, MetricKind.LATENCY⟩,
       ⟨name ++ "_p95_latency", none, MetricKind.LATENCY⟩,
       ⟨name ++ "_p99_latency", none, MetricKind.LATENCY⟩] := rfl

/-- C2: `convert_throughput_to_perf_metrics` returns exactly two THROUGHPUT
records, `name ++ "_avg_rps"` with value `mean` then
`name ++ "_throughput_std"` with value `std`; in particular on
`("http", 120, 5)` it yields `"http_avg_rps" = 120` and
`"http_throughput_std" = 5`, in that order. -/
theorem throughput_to_metrics_spec (name : String) (mean std : ℚ) :
    convert_throughput_to_perf_metrics name mean std =
      [⟨name ++ "_avg_rps", some mean, MetricKind.THROUGHPUT⟩,
       ⟨name ++ "_throughput_std", some std, MetricKind.THROUGHPUT⟩] ∧
    convert_throughput_to_perf_metrics "http" 120 5 =
      [⟨"http_avg_rps", some 120, MetricKind.THROUGHPUT⟩,
       ⟨"http_throughput_std", some 5, MetricKind.THROUGHPUT⟩] :=
  ⟨rfl, by decide⟩

theorem sorted_sortedSamples (samples : List ℚ) :
    List.Sorted (· ≤ ·) (sortedSamples samples) :=
  List.sorted_insertionSort _ samples

theorem perm_sortedSamples (samples : List ℚ) :
    List.Perm (sortedSamples samples) samples :=
  List.perm_insertionSort _ samples

theorem sortedSamples_ne_nil (samples : List ℚ) (hne : samples ≠ []) :
    sortedSamples samples ≠ [] := by
  intro h
  apply hne
  have hlen := (perm_sortedSamples samples).length_eq
  rw [h] at hlen
  exact List.length_eq_zero.mp hlen.symm

theorem getD_le_getD (s : List ℚ) (hs : List.Sorted (· ≤ ·) s) (i j : ℕ)
    (hij : i ≤ j) (hj : j < s.length) : s.getD i 0 ≤ s.getD j 0 := by
  have hi : i < s.length := lt_of_le_of_lt hij hj
  rw [List.getD_eq_getElem s 0 hi, List.getD_eq_getElem s 0 hj]
  have hab : (⟨i, hi⟩ : Fin s.length) ≤ ⟨j, hj⟩ := hij
  simpa using hs.rel_get_of_le hab

theorem hiDiff_nonneg (s : List ℚ) (hs : List.Sorted (· ≤ ·) s) (i : ℕ) :
    0 ≤ s.getD (i + 1) (s.getD i 0) - s.getD i 0 := by
  by_cases h : i + 1 < s.length
  · have h1 : s.getD (i + 1) (s.getD i 0) = s.getD (i + 1) 0 := by
      rw [List.getD_eq_getElem s _ h, List.getD_eq_getElem s _ h]
    rw [h1]
    exact sub_nonneg.mpr (getD_le_getD s hs i (i + 1) (Nat.le_succ i) h)
  · rw [List.getD_eq_default s _ (le_of_not_lt h)]
    simp

theorem interpIdx_mono (s : List ℚ) (hs : List.Sorted (· ≤ ·) s)
    (h1 h2 : ℚ) (h1nn : 0 ≤ h1) (h12 : h1 ≤ h2)
    (h2ub : h2 ≤ (s.length : ℚ) - 1) :
    interpIdx s h1 ≤ interpIdx s h2 := by
  have h2nn : 0 ≤ h2 := le_trans h1nn h12
  have hi12 : ⌊h1⌋₊ ≤ ⌊h2⌋₊ := Nat.floor_le_floor h12
  have hi2q : (⌊h2⌋₊ : ℚ) ≤ (s.length : ℚ) - 1 :=
    le_trans (Nat.floor_le h2nn) h2ub
  have hi2n : ⌊h2⌋₊ < s.length := by
    have hq : (⌊h2⌋₊ : ℚ) < (s.length : ℚ) := by linarith
    exact_mod_cast hq
  have hfl1 : (⌊h1⌋₊ : ℚ) ≤ h1 := Nat.floor_le h1nn
  have hfl2 : (⌊h2⌋₊ : ℚ) ≤ h2 := Nat.floor_le h2nn
  rcases eq_or_lt_of_le hi12 with heq | hlt
  · unfold interpIdx
    rw [← heq]
    have hd := hiDiff_nonneg s hs ⌊h1⌋₊
    have hm := mul_le_mul_of_nonneg_right
      (show h1 - (⌊h1⌋₊ : ℚ) ≤ h2 - (⌊h1⌋₊ : ℚ) by linarith) hd
    linarith
  · have hsucc : ⌊h1⌋₊ + 1 ≤ ⌊h2⌋₊ := hlt
    have hi1n : ⌊h1⌋₊ + 1 < s.length := lt_of_le_of_lt hsucc hi2n
    have e1 : s.getD (⌊h1⌋₊ + 1) (s.getD ⌊h1⌋₊ 0) = s.getD (⌊h1⌋₊ + 1) 0 := by
      rw [List.getD_eq_getElem s _ hi1n, List.getD_eq_getElem s _ hi1n]
    have hd1 : 0 ≤ s.getD (⌊h1⌋₊ + 1) 0 - s.getD ⌊h1⌋₊ 0 :=
      sub_nonneg.mpr (getD_le_getD s hs ⌊h1⌋₊ (⌊h1⌋₊ + 1) (Nat.le_succ _) hi1n)
    have hup1 : h1 - (⌊h1⌋₊ : ℚ) ≤ 1 := by
      have hlf := Nat.lt_floor_add_one h1
      push_cast at hlf
      linarith
    have step1 : interpIdx s h1 ≤ s.getD (⌊h1⌋₊ + 1) 0 := by
      unfold interpIdx
      rw [e1]
      have hm := mul_le_mul_of_nonneg_right hup1 hd1
      linarith
    have step2 : s.getD (⌊h1⌋₊ + 1) 0 ≤ s.getD ⌊h2⌋₊ 0 :=
      getD_le_getD s hs _ _ hsucc hi2n
    have hd2 := hiDiff_nonneg s hs ⌊h2⌋₊
    have step3 : s.getD ⌊h2⌋₊ 0 ≤ interpIdx s h2 := by
      unfold interpIdx
      have hm := mul_nonneg
        (show (0 : ℚ) ≤ h2 - (⌊h2⌋₊ : ℚ) by linarith) hd2
      linarith
    linarith

theorem interpAt_mono (s : List ℚ) (hs : List.Sorted (· ≤ ·) s)
    (hne : s ≠ []) (q1 q2 : ℚ) (hq0 : 0 ≤ q1) (hq12 : q1 ≤ q2)
    (hq1 : q2 ≤ 1) : interpAt s q1 ≤ interpAt s q2 := by
  have hlen : 1 ≤ s.length := List.length_pos.mpr hne
  have hlq : (1 : ℚ) ≤ (s.length : ℚ) := by exact_mod_cast hlen
  apply interpIdx_mono s hs
  · exact mul_nonneg (by linarith) hq0
  · exact mul_le_mul_of_nonneg_left hq12 (by linarith)
  · exact mul_le_of_le_one_right (by linarith) hq1

theorem floorRank_lt (n : ℕ) (hn : 1 ≤ n) (q : ℚ) (hq0 : 0 ≤ q)
    (hq1 : q ≤ 1) : ⌊((n : ℚ) - 1) * q⌋₊ < n := by
  have hlq : (1 : ℚ) ≤ (n : ℚ) := by exact_mod_cast hn
  have h0 : 0 ≤ ((n : ℚ) - 1) * q := mul_nonneg (by linarith) hq0
  have hub : ((n : ℚ) - 1) * q ≤ (n : ℚ) - 1 :=
    mul_le_of_le_one_right (by linarith) hq1
  have hq' : (⌊((n : ℚ) - 1) * q⌋₊ : ℚ) < (n : ℚ) := by
    have := Nat.floor_le h0
    linarith
  exact_mod_cast hq'

theorem interpAt_const (s : List ℚ) (d : ℚ) (hne : s ≠ [])
    (hd : ∀ x ∈ s, x = d) (q : ℚ) (hq0 : 0 ≤ q) (hq1 : q ≤ 1) :
    interpAt s q = d := by
  have hlen : 1 ≤ s.length := List.length_pos.mpr hne
  have hin : ⌊((s.length : ℚ) - 1) * q⌋₊ < s.length :=
    floorRank_lt s.length hlen q hq0 hq1
  unfold interpAt interpIdx
  have hlo : s.getD ⌊((s.length : ℚ) - 1) * q⌋₊ 0 = d := by
    rw [List.getD_eq_getElem s _ hin]
    exact hd _ (List.getElem_mem hin)
  have hhi : s.getD (⌊((s.length : ℚ) - 1) * q⌋₊ + 1)
      (s.getD ⌊((s.length : ℚ) - 1) * q⌋₊ 0) = d := by
    by_cases hb : ⌊((s.length : ℚ) - 1) * q⌋₊ + 1 < s.length
    · rw [List.getD_eq_getElem s _ hb]
      exact hd _ (List.getElem_mem hb)
    · rw [List.getD_eq_default s _ (le_of_not_lt hb)]
      exact hlo
  rw [hhi, hlo]
  ring

/-- C1: on a non-empty sample sequence, `convert_latencies_to_perf_metrics`
returns exactly four LATENCY records named `name ++ "_p50_latency"` through
`name ++ "_p99_latency"`, in order p50, p90, p95, p99, each value the
quantile obtained by linear interpolation between the two nearest ranks of
the sorted sample sequence. -/
theorem latencies_to_metrics_spec (name : String) (samples : List ℚ)
    (hne : samples ≠ []) :
    convert_latencies_to_perf_metrics name samples =
      [⟨name ++ "_p50_latency", some (interpAt (sortedSamples samples) (1/2)),
        MetricKind.LATENCY⟩,
       ⟨name ++ "_p90_latency", some (interpAt (sortedSamples samples) (9/10)),
        MetricKind.LATENCY⟩,
       ⟨name ++ "_p95_latency",
        some (interpAt (sortedSamples samples) (95/100)),
        MetricKind.LATENCY⟩,
       ⟨name ++ "_p99_latency",
        some (interpAt (sortedSamples samples) (99/100)),
        MetricKind.LATENCY⟩] := by
  simp only [convert_latencies_to_perf_metrics, quantile, if_neg hne]

theorem latencies_to_metrics_spec_witness :
    ([(1 : ℚ), 2, 3, 4] ≠ []) ∧
      convert_latencies_to_perf_metrics "http" [1, 2, 3, 4] =
        [⟨"http" ++ "_p50_latency",
          some (interpAt (sortedSamples [1, 2, 3, 4]) (1/2)),
          MetricKind.LATENCY⟩,
         ⟨"http" ++ "_p90_latency",
          some (interpAt (sortedSamples [1, 2, 3, 4]) (9/10)),
          MetricKind.LATENCY⟩,
         ⟨"http" ++ "_p95_latency",
          some (interpAt (sortedSamples [1, 2, 3, 4]) (95/100)),
          MetricKind.LATENCY⟩,
         ⟨"http" ++ "_p99_latency",
          some (interpAt (sortedSamples [1, 2, 3, 4]) (99/100)),
          MetricKind.LATENCY⟩] :=
  ⟨List.cons_ne_nil 1 [2, 3, 4],
    latencies_to_metrics_spec "http" [1, 2, 3, 4] (List.cons_ne_nil 1 [2, 3, 4])⟩

/-- C8: if every sample equals the same value `d`, all four quantile metric
values produced by `convert_latencies_to_perf_metrics` equal `d`. -/
theorem latencies_to_metrics_const (name : String) (d : ℚ)
    (samples : List ℚ) (hne : samples ≠ []) (hd : ∀ x ∈ samples, x = d) :
    convert_latencies_to_perf_metrics name samples =
      [⟨name ++ "_p50_latency", some d, MetricKind.LATENCY⟩,
       ⟨name ++ "_p90_latency", some d, MetricKind.LATENCY⟩,
       ⟨name ++ "_p95_latency", some d, MetricKind.LATENCY⟩,
       ⟨name ++ "_p99_latency", some d, MetricKind.LATENCY⟩] := by
  have hne' : sortedSamples samples ≠ [] := sortedSamples_ne_nil samples hne
  have hd' : ∀ x ∈ sortedSamples samples, x = d := fun x hx =>
    hd x ((perm_sortedSamples samples).mem_iff.mp hx)
  simp only [convert_latencies_to_perf_metrics, quantile, if_neg hne]
  rw [interpAt_const _ d hne' hd' _ (by norm_num) (by norm_num),
    interpAt_const _ d hne' hd' _ (by norm_num) (by norm_num),
    interpAt_const _ d hne' hd' _ (by norm_num) (by norm_num),
    interpAt_const _ d hne' hd' _ (by norm_num) (by norm_num)]

theorem latencies_to_metrics_const_witness :
    ([(7 : ℚ), 7, 7] ≠ []) ∧ (∀ x ∈ [(7 : ℚ), 7, 7], x = 7) ∧
      convert_latencies_to_perf_metrics "handle" [7, 7, 7] =
        [⟨"handle" ++ "_p50_latency", some 7, MetricKind.LATENCY⟩,
         ⟨"handle" ++ "_p90_latency", some 7, MetricKind.LATENCY⟩,
         ⟨"handle" ++ "_p95_latency", some 7, MetricKind.LATENCY⟩,
         ⟨"handle" ++ "_p99_latency", some 7, MetricKind.LATENCY⟩] :=
  ⟨by decide, by decide,
    latencies_to_metrics_const "handle" 7 [7, 7, 7] (by decide) (by decide)⟩

/-- C3: quantile monotonicity — on any non-empty sample sequence the four
values produced by `convert_latencies_to_perf_metrics` satisfy
p50 ≤ p90 ≤ p95 ≤ p99. -/
theorem quantiles_monotone (name : String) (samples : List ℚ)
    (hne : samples ≠ []) :
    ∃ v50 v90 v95 v99 : ℚ,
      (convert_latencies_to_perf_metrics name samples).map
          (fun r => r.perf_metric_value) =
        [some v50, some v90, some v95, some v99] ∧
      v50 ≤ v90 ∧ v90 ≤ v95 ∧ v95 ≤ v99 := by
  have hs := sorted_sortedSamples samples
  have hne' : sortedSamples samples ≠ [] := sortedSamples_ne_nil samples hne
  refine ⟨interpAt (sortedSamples samples) (1/2),
    interpAt (sortedSamples samples) (9/10),
    interpAt (sortedSamples samples) (95/100),
    interpAt (sortedSamples samples) (99/100), ?_, ?_, ?_, ?_⟩
  · simp [convert_latencies_to_perf_metrics, quantile, if_neg hne]
  · exact interpAt_mono _ hs hne' _ _ (by norm_num) (by norm_num) (by norm_num)
  · exact interpAt_mono _ hs hne' _ _ (by norm_num) (by norm_num) (by norm_num)
  · exact interpAt_mono _ hs hne' _ _ (by norm_num) (by norm_num) (by norm_num)

theorem quantiles_monotone_witness :
    ([(1 : ℚ), 2] ≠ []) ∧
      ∃ v50 v90 v95 v99 : ℚ,
        (convert_latencies_to_perf_metrics "grpc" [1, 2]).map
            (fun r => r.perf_metric_value) =
          [some v50, some v90, some v95, some v99] ∧
        v50 ≤ v90 ∧ v90 ≤ v95 ∧ v95 ≤ v99 :=
  ⟨by decide, quantiles_monotone "grpc" [1, 2] (by decide)⟩

/-- C7: the latency reporter is pure — in state-passing form it returns its
input sample buffer unchanged, the percentile computation works on a sorted
copy (a permutation of the input), and the records depend on the samples
only up to permutation (insertion order never leaks into the output). -/
theorem reporter_pure (name : String) (samples : List ℚ) :
    (convert_latencies_to_perf_metrics_state name samples).2 = samples ∧
    List.Perm (sortedSamples samples) samples ∧
    ∀ s2 : List ℚ, List.Perm samples s2 →
      convert_latencies_to_perf_metrics name samples =
        convert_latencies_to_perf_metrics name s2 := by
  refine ⟨rfl, perm_sortedSamples samples, ?_⟩
  intro s2 hperm
  have hsortEq : sortedSamples samples = sortedSamples s2 :=
    List.eq_of_perm_of_sorted
      (((perm_sortedSamples samples).trans hperm).trans
        (perm_sortedSamples s2).symm)
      (sorted_sortedSamples samples) (sorted_sortedSamples s2)
  have hnil : samples = [] ↔ s2 = [] := by
    simp only [← List.length_eq_zero, hperm.length_eq]
  simp only [convert_latencies_to_perf_metrics, quantile, hsortEq, hnil]

theorem reporter_pure_witness :
    convert_latencies_to_perf_metrics "handle" [2, 1] =
      convert_latencies_to_perf_metrics "handle" [1, 2] :=
  (reporter_pure "handle" [2, 1]).2.2 [1, 2] (by decide)

/-- C6: with every benchmark enabled, the `perf_metrics` list assembled by
`_main` is the concatenation of the per-benchmark record lists in execution
order — HTTP before gRPC before handle; within each transport the latency
benchmarks (noop, then 1MB, then 10MB) before the throughput benchmarks
(default, then `max_ongoing_requests=100`) — with no reordering. -/
theorem main_metrics_order (r : BenchResults) :
    mainPerfMetrics true true true true true r =
      convert_latencies_to_perf_metrics "http" r.http_noop_lat ++
      convert_latencies_to_perf_metrics "http_1mb" r.http_1mb_lat ++
      convert_latencies_to_perf_metrics "http_10mb" r.http_10mb_lat ++
      convert_throughput_to_perf_metrics "http" r.http_tp.1 r.http_tp.2 ++
      convert_throughput_to_perf_metrics "http_100_max_ongoing_requests"
        r.http_100_tp.1 r.http_100_tp.2 ++
      convert_latencies_to_perf_metrics "grpc" r.grpc_noop_lat ++
      convert_latencies_to_perf_metrics "grpc_1mb" r.grpc_1mb_lat ++
      convert_latencies_to_perf_metrics "grpc_10mb" r.grpc_10mb_lat ++
      convert_throughput_to_perf_metrics "grpc" r.grpc_tp.1 r.grpc_tp.2 ++
      convert_throughput_to_perf_metrics "grpc_100_max_ongoing_requests"
        r.grpc_100_tp.1 r.grpc_100_tp.2 ++
      convert_latencies_to_perf_metrics "handle" r.handle_noop_lat ++
      convert_latencies_to_perf_metrics "handle_1mb" r.handle_1mb_lat ++
      convert_latencies_to_perf_metrics "handle_10mb" r.handle_10mb_lat ++
      convert_throughput_to_perf_metrics "handle" r.handle_tp.1
        r.handle_tp.2 ++
      convert_throughput_to_perf_metrics "handle_100_max_ongoing_requests"
        r.handle_100_tp.1 r.handle_100_tp.2 := by
  simp [mainPerfMetrics, httpMetrics, grpcMetrics, handleMetrics,
    List.append_assoc]

theorem mem_ite_elim {α : Type} {c : Prop} [Decidable c] {A : List α} {x : α}
    (hx : x ∈ if c then A else []) : x ∈ A := by
  by_cases h : c
  · rwa [if_pos h] at hx
  · rw [if_neg h] at hx
    exact absurd hx (List.not_mem_nil x)

theorem httpMetrics_fromReporter (l t : Bool) (r : BenchResults)
    (rec : PerfMetricRecord) (h : rec ∈ httpMetrics l t r) :
    FromReporter rec := by
  unfold httpMetrics at h
  rcases List.mem_append.mp h with h1 | h2
  · replace h1 := mem_ite_elim h1
    rcases List.mem_append.mp h1 with hab | hc
    · rcases List.mem_append.mp hab with ha | hb
      · exact Or.inl ⟨"http", r.http_noop_lat, ha⟩
      · exact Or.inl ⟨"http_1mb", r.http_1mb_lat, hb⟩
    · exact Or.inl ⟨"http_10mb", r.http_10mb_lat, hc⟩
  · replace h2 := mem_ite_elim h2
    rcases List.mem_append.mp h2 with ha | hb
    · exact Or.inr ⟨"http", r.http_tp.1, r.http_tp.2, ha⟩
    · exact Or.inr ⟨"http_100_max_ongoing_requests", r.http_100_tp.1,
        r.http_100_tp.2, hb⟩

theorem grpcMetrics_fromReporter (l t : Bool) (r : BenchResults)
    (rec : PerfMetricRecord) (h : rec ∈ grpcMetrics l t r) :
    FromReporter rec := by
  unfold grpcMetrics at h
  rcases List.mem_append.mp h with h1 | h2
  · replace h1 := mem_ite_elim h1
    rcases List.mem_append.mp h1 with hab | hc
    · rcases List.mem_append.mp hab with ha | hb
      · exact Or.inl ⟨"grpc", r.grpc_noop_lat, ha⟩
      · exact Or.inl ⟨"grpc_1mb", r.grpc_1mb_lat, hb⟩
    · exact Or.inl ⟨"grpc_10mb", r.grpc_10mb_lat, hc⟩
  · replace h2 := mem_ite_elim h2
    rcases List.mem_append.mp h2 with ha | hb
    · exact Or.inr ⟨"grpc", r.grpc_tp.1, r.grpc_tp.2, ha⟩
    · exact Or.inr ⟨"grpc_100_max_ongoing_requests", r.grpc_100_tp.1,
        r.grpc_100_tp.2, hb⟩

theorem handleMetrics_fromReporter (l t : Bool) (r : BenchResults)
    (rec : PerfMetricRecord) (h : rec ∈ handleMetrics l t r) :
    FromReporter rec := by
  unfold handleMetrics at h
  rcases List.mem_append.mp h with h1 | h2
  · replace h1 := mem_ite_elim h1
    rcases List.mem_append.mp h1 with hab | hc
    · rcases List.mem_append.mp hab with ha | hb
      · exact Or.inl ⟨"handle", r.handle_noop_lat, ha⟩
      · exact Or.inl ⟨"handle_1mb", r.handle_1mb_lat, hb⟩
    · exact Or.inl ⟨"handle_10mb", r.handle_10mb_lat, hc⟩
  · replace h2 := mem_ite_elim h2
    rcases List.mem_append.mp h2 with ha | hb
    · exact Or.inr ⟨"handle", r.handle_tp.1, r.handle_tp.2, ha⟩
    · exact Or.inr ⟨"handle_100_max_ongoing_requests", r.handle_100_tp.1,
        r.handle_100_tp.2, hb⟩

/-- C5: every record in the `perf_metrics` list assembled by `_main` has
exactly the three fields name/value/kind, its kind is LATENCY or THROUGHPUT,
and it was produced by one of the two metric-reporter functions. -/
theorem records_provenance (h g d l t : Bool) (r : BenchResults)
    (rec : PerfMetricRecord) (hrec : rec ∈ mainPerfMetrics h g d l t r) :
    FromReporter rec ∧
    rec = ⟨rec.perf_metric_name, rec.perf_metric_value,
      rec.perf_metric_type⟩ ∧
    (rec.perf_metric_type = MetricKind.LATENCY ∨
      rec.perf_metric_type = MetricKind.THROUGHPUT) := by
  refine ⟨?_, rfl, ?_⟩
  · unfold mainPerfMetrics at hrec
    rcases List.mem_append.mp hrec with h12 | h3
    · rcases List.mem_append.mp h12 with h1 | h2
      · exact httpMetrics_fromReporter l t r rec (mem_ite_elim h1)
      · exact grpcMetrics_fromReporter l t r rec (mem_ite_elim h2)
    · exact handleMetrics_fromReporter l t r rec (mem_ite_elim h3)
  · obtain ⟨n, v, k⟩ := rec
    cases k
    · exact Or.inl rfl
    · exact Or.inr rfl

theorem records_provenance_witness :
    (⟨"http_avg_rps", some 0, MetricKind.THROUGHPUT⟩ : PerfMetricRecord) ∈
        mainPerfMetrics true true true true true emptyResults ∧
      (FromReporter ⟨"http_avg_rps", some 0, MetricKind.THROUGHPUT⟩ ∧
        (⟨"http_avg_rps", some 0, MetricKind.THROUGHPUT⟩ :
            PerfMetricRecord) =
          ⟨(⟨"http_avg_rps", some 0, MetricKind.THROUGHPUT⟩ :
              PerfMetricRecord).perf_metric_name,
            (⟨"http_avg_rps", some 0, MetricKind.THROUGHPUT⟩ :
              PerfMetricRecord).perf_metric_value,
            (⟨"http_avg_rps", some 0, MetricKind.THROUGHPUT⟩ :
              PerfMetricRecord).perf_metric_type⟩ ∧
        ((⟨"http_avg_rps", some 0, MetricKind.THROUGHPUT⟩ :
              PerfMetricRecord).perf_metric_type = MetricKind.LATENCY ∨
          (⟨"http_avg_rps", some 0, MetricKind.THROUGHPUT⟩ :
              PerfMetricRecord).perf_metric_type = MetricKind.THROUGHPUT)) :=
  ⟨by decide,
    records_provenance true true true true true emptyResults _ (by decide)⟩

/-- C9: if at least one selection flag is set but no transport flag is among
them, the run-all default is not triggered, no benchmark runs, and the saved
`perf_metrics` list is empty; when none of the five flags is set, all
transports and both benchmark kinds run. -/
theorem cli_flag_defaulting (l t : Bool) (r : BenchResults)
    (hlt : (l || t) = true) :
    resolvedFlags false false false false l t = (false, false, false, l, t) ∧
    mainResult false false false false l t r = [] ∧
    resolvedFlags false false false false false false =
      (true, true, true, true, true) ∧
    mainResult false false false false false false r =
      mainPerfMetrics true true true true true r := by
  cases l <;> cases t <;>
    simp_all [resolvedFlags, mainResult, mainPerfMetrics]

theorem cli_flag_defaulting_witness :
    ((true || false) = true) ∧
      (resolvedFlags false false false false true false =
          (false, false, false, true, false) ∧
        mainResult false false false false true false emptyResults = [] ∧
        resolvedFlags false false false false false false =
          (true, true, true, true, true) ∧
        mainResult false false false false false false emptyResults =
          mainPerfMetrics true true true true true emptyResults) :=
  ⟨rfl, cli_flag_defaulting true false emptyResults rfl⟩

theorem startCount_append (a b : List ThroughputEvent) :
    startCount (a ++ b) = startCount a + startCount b :=
  List.count_append _ a b

theorem finishCount_append (a b : List ThroughputEvent) :
    finishCount (a ++ b) = finishCount a + finishCount b :=
  List.count_append _ a b

theorem initSeg_cons_cases {α : Type} {p l : List α} {x : α}
    (h : InitSeg p (x :: l)) : p = [] ∨ ∃ q, p = x :: q ∧ InitSeg q l := by
  obtain ⟨t, ht⟩ := h
  cases p with
  | nil => exact Or.inl rfl
  | cons y p2 =>
    rw [List.cons_append] at ht
    injection ht with hxy hrest
    subst hxy
    exact Or.inr ⟨p2, rfl, t, hrest⟩

theorem initSeg_append_cases {α : Type} {a b p : List α}
    (h : InitSeg p (a ++ b)) :
    InitSeg p a ∨ ∃ q, p = a ++ q ∧ InitSeg q b := by
  induction a generalizing p with
  | nil =>
    right
    exact ⟨p, rfl, by simpa using h⟩
  | cons x a ih =>
    rw [List.cons_append] at h
    rcases initSeg_cons_cases h with hp | ⟨q, rfl, hq⟩
    · subst hp
      exact Or.inl ⟨x :: a, rfl⟩
    · rcases ih hq with ⟨t, ht⟩ | ⟨q2, rfl, hq2⟩
      · exact Or.inl ⟨t, by rw [List.cons_append, ht]⟩
      · exact Or.inr ⟨q2, by rw [List.cons_append], hq2⟩

theorem joined_batches_bound (k : ℕ)
    (batches : List (List ThroughputEvent))
    (hb : ∀ b ∈ batches, IsBatchTrace k b) (p : List ThroughputEvent)
    (hp : InitSeg p batches.flatten) : inFlight p ≤ k := by
  induction batches generalizing p with
  | nil =>
    obtain ⟨t, ht⟩ := hp
    rw [List.flatten_nil] at ht
    obtain ⟨hp0, -⟩ := List.append_eq_nil.mp ht
    subst hp0
    show (0 : ℤ) ≤ k
    exact_mod_cast Nat.zero_le k
  | cons b bs ih =>
    rw [List.flatten_cons] at hp
    obtain ⟨hsb, hfb, -⟩ := hb b (List.mem_cons_self b bs)
    rcases initSeg_append_cases hp with hpa | ⟨q, rfl, hq⟩
    · obtain ⟨t, ht⟩ := hpa
      have hcount : startCount p ≤ k := by
        calc startCount p ≤ startCount p + startCount t := Nat.le_add_right _ _
          _ = startCount (p ++ t) := (startCount_append p t).symm
          _ = startCount b := by rw [ht]
          _ = k := hsb
      have h0 : (0 : ℤ) ≤ (finishCount p : ℤ) := Int.natCast_nonneg _
      have h1 : (startCount p : ℤ) ≤ (k : ℤ) := by exact_mod_cast hcount
      unfold inFlight
      linarith
    · have ihq := ih (fun b2 hb2 => hb b2 (List.mem_cons_of_mem _ hb2)) q hq
      unfold inFlight at ihq ⊢
      rw [startCount_append, finishCount_append, hsb, hfb]
      push_cast
      linarith

/-- C4 (spec-modelled: `run_throughput_benchmark` is implemented in
`ray.serve._private.benchmarks.common`, outside this repository's sources):
during a trial, every initial segment of the event trace — a concatenation
of complete batches of `batch_size` concurrent `issue()` calls, each batch
awaited in full before the next is launched — has at most `batch_size`
calls in flight. -/
theorem batch_barrier (k : ℕ) (tr : List ThroughputEvent)
    (htr : IsTrialTrace k tr) (p : List ThroughputEvent)
    (hp : InitSeg p tr) : inFlight p ≤ k := by
  obtain ⟨batches, rfl, hb⟩ := htr
  exact joined_batches_bound k batches hb p hp

theorem batchTrace_canonical (k : ℕ) :
    IsBatchTrace k (List.replicate k ThroughputEvent.start ++
      List.replicate k ThroughputEvent.finish) := by
  refine ⟨?_, ?_, ?_⟩
  · unfold startCount
    rw [List.count_append]
    simp [List.count_replicate]
  · unfold finishCount
    rw [List.count_append]
    simp [List.count_replicate]
  · intro p hp
    rcases initSeg_append_cases hp with hpa | ⟨q, rfl, hq⟩
    · have hmem : ∀ x ∈ p, x = ThroughputEvent.start := by
        intro x hx
        obtain ⟨t, ht⟩ := hpa
        have hx2 : x ∈ List.replicate k ThroughputEvent.start := by
          rw [← ht]
          exact List.mem_append_left t hx
        exact List.eq_of_mem_replicate hx2
      have hz : finishCount p = 0 := by
        unfold finishCount
        rw [List.count_eq_zero]
        intro hf
        exact absurd (hmem _ hf) (by decide)
      rw [hz]
      exact Nat.zero_le _
    · have hql : q.length ≤ k := by
        obtain ⟨t, ht⟩ := hq
        have hlen := congrArg List.length ht
        simp at hlen
        omega
      have hcq : List.count ThroughputEvent.finish q ≤ q.length :=
        List.count_le_length _ _
      rw [startCount_append, finishCount_append]
      unfold startCount finishCount
      simp [List.count_replicate]
      omega

theorem batch_barrier_witness :
    IsTrialTrace 2 [ThroughputEvent.start, ThroughputEvent.start,
        ThroughputEvent.finish, ThroughputEvent.finish] ∧
      InitSeg [ThroughputEvent.start, ThroughputEvent.start]
        [ThroughputEvent.start, ThroughputEvent.start,
          ThroughputEvent.finish, ThroughputEvent.finish] ∧
      inFlight [ThroughputEvent.start, ThroughputEvent.start] ≤ 2 := by
  have htr : IsTrialTrace 2 [ThroughputEvent.start, ThroughputEvent.start,
      ThroughputEvent.finish, ThroughputEvent.finish] := by
    refine ⟨[[ThroughputEvent.start, ThroughputEvent.start,
      ThroughputEvent.finish, ThroughputEvent.finish]], rfl, ?_⟩
    intro b hb
    rw [List.mem_singleton] at hb
    subst hb
    exact batchTrace_canonical 2
  refine ⟨htr, ⟨[ThroughputEvent.finish, ThroughputEvent.finish], rfl⟩, ?_⟩
  exact batch_barrier 2 _ htr _
    ⟨[ThroughputEvent.finish, ThroughputEvent.finish], rfl⟩

end Microbenchmarks
